import Mathlib

set_option maxRecDepth 10000

namespace NodePlayground

/-! Shallow embedding of the node-playground users API core:
data model (src/src/modules/users/users.schema.ts), in-memory repository
(users.repository.ts, bundled in src/src/server.ts), service layer
(users.service.ts), validation stage (users.schema.ts via
shared/middleware/validate.ts), request-correlation middleware
(shared/middleware/requestId.ts) and the centralized error handler
(shared/middleware/errorHandler.ts). Stateful methods become explicit
state passing over the store; the uuid and clock calls of the service
become oracle arguments. -/

/-- Single-quote character, used inside the error message templates. -/
def sq : String := String.singleton (Char.ofNat 39)

/-- Model of the JavaScript String.prototype.toLowerCase used on emails
(ASCII case mapping, which covers every email in this system). -/
def lowerStr (s : String) : String := String.mk (s.data.map Char.toLower)

/-- Model of the JavaScript String.prototype.trim: strips whitespace from both
ends. -/
def trimStr (s : String) : String :=
  String.mk (((s.data.dropWhile Char.isWhitespace).reverse.dropWhile Char.isWhitespace).reverse)

/-- Closed role enumeration (UserRole in users.schema.ts). -/
inductive Role
  | admin
  | editor
  | viewer
deriving DecidableEq, Repr

/-- Persisted User shape (userSchema in users.schema.ts). -/
structure User where
  id : String
  name : String
  email : String
  role : Role
  createdAt : String
  updatedAt : String
deriving DecidableEq, Repr

/-- Validated POST /users body (CreateUserInput). -/
structure CreateUserInput where
  name : String
  email : String
  role : Role
deriving DecidableEq, Repr

/-- Validated PATCH /users/:id body (UpdateUserInput) — all fields optional. -/
structure UpdateUserInput where
  name : Option String
  email : Option String
  role : Option Role
deriving DecidableEq, Repr

/-- Operational error codes (ErrorCode in shared/errors/AppError.ts). -/
inductive ErrorCode
  | RESOURCE_NOT_FOUND
  | VALIDATION_ERROR
  | CONFLICT
  | INTERNAL_SERVER_ERROR
deriving DecidableEq, Repr

/-- Field-level validation sub-error (FieldError in ValidationError.ts). -/
structure FieldError where
  field : String
  message : String
deriving DecidableEq, Repr

/-- Operational error value (AppError in shared/errors/AppError.ts). -/
structure AppError where
  message : String
  statusCode : Nat
  code : ErrorCode
  details : Option (List FieldError)
deriving DecidableEq, Repr

/-- NotFoundError from shared/errors/NotFoundError.ts:
message is resource ++ " with id |id| not found" with single quotes around the id. -/
def NotFoundError (resource : String) (id : String) : AppError :=
  { message := resource ++ " with id " ++ sq ++ id ++ sq ++ " not found",
    statusCode := 404, code := .RESOURCE_NOT_FOUND, details := none }

/-- Modelled from the spec: the ConflictError class source file is absent from
src (only exported by shared/errors/index.ts and constructed by the service);
spec section 7 fixes the CONFLICT kind to HTTP 409 and the service supplies the
whole message. -/
def ConflictError (message : String) : AppError :=
  { message := message, statusCode := 409, code := .CONFLICT, details := none }

/-- Conflict message built at both service call sites:
"A user with email |email| already exists" with single quotes around the email. -/
def conflictMessage (email : String) : String :=
  "A user with email " ++ sq ++ email ++ sq ++ " already exists"

/-- ValidationError from shared/errors/ValidationError.ts. -/
def ValidationError (fields : List FieldError) : AppError :=
  { message := "Request validation failed", statusCode := 422,
    code := .VALIDATION_ERROR, details := some fields }

/-- Validated pagination query (shared/types/pagination.ts). -/
structure PaginationQuery where
  page : Nat
  limit : Nat
deriving DecidableEq, Repr

/-- Pagination metadata (shared/types/pagination.ts). -/
structure PaginationMeta where
  page : Nat
  limit : Nat
  total : Nat
  totalPages : Nat
deriving DecidableEq, Repr

/-- Paginated result (shared/types/pagination.ts). -/
structure PaginatedResult (α : Type) where
  data : List α
  meta : PaginationMeta
deriving DecidableEq, Repr

/-- toOffset from shared/types/pagination.ts: (page - 1) * limit.
Validation guarantees page ≥ 1, so Nat subtraction agrees with the source. -/
def toOffset (page : Nat) (limit : Nat) : Nat :=
  (page - 1) * limit

/-- Ceiling division on Nat; equals Math.ceil(total / limit) for limit ≥ 1. -/
def ceilNat (total : Nat) (limit : Nat) : Nat :=
  (total + limit - 1) / limit

/-- buildPaginationMeta from shared/types/pagination.ts:
totalPages is Math.ceil(total / limit) with the falsy value 0 replaced by 1. -/
def buildPaginationMeta (total : Nat) (page : Nat) (limit : Nat) : PaginationMeta :=
  { page := page, limit := limit, total := total,
    totalPages := if ceilNat total limit = 0 then 1 else ceilNat total limit }

namespace InMemoryUserRepository

/-- findAll from users.repository.ts: slice [offset, offset + limit) of the
store in insertion order, together with the total count. -/
def findAll (store : List User) (pagination : PaginationQuery) : List User × Nat :=
  let total := store.length
  let offset := toOffset pagination.page pagination.limit
  let users := (store.drop offset).take pagination.limit
  (users, total)

/-- findById from users.repository.ts: first record with the given id. -/
def findById (store : List User) (id : String) : Option User :=
  store.find? (fun u => u.id == id)

/-- findByEmail from users.repository.ts: first record with the given
(exact, already normalized) email. -/
def findByEmail (store : List User) (email : String) : Option User :=
  store.find? (fun u => u.email == email)

/-- create from users.repository.ts: appends a record built from the
caller-supplied id and timestamp; createdAt = updatedAt = now. -/
def create (store : List User) (id : String) (input : CreateUserInput) (now : String) :
    User × List User :=
  let user : User :=
    { id := id, name := input.name, email := input.email, role := input.role,
      createdAt := now, updatedAt := now }
  (user, store ++ [user])

/-- Record merge performed at the found index by update in users.repository.ts:
conditional spreads merge exactly the supplied fields, then set updatedAt. -/
def applyUpdate (existing : User) (input : UpdateUserInput) (updatedAt : String) : User :=
  { existing with
    name := input.name.getD existing.name,
    email := input.email.getD existing.email,
    role := input.role.getD existing.role,
    updatedAt := updatedAt }

/-- update from users.repository.ts: findIndex on id (first match), merge the
supplied fields there, or report none when no record matches. -/
def update : List User → String → UpdateUserInput → String → Option User × List User
  | [], _, _, _ => (none, [])
  | u :: rest, id, input, updatedAt =>
    if u.id == id then
      let updated := applyUpdate u input updatedAt
      (some updated, updated :: rest)
    else
      let result := update rest id input updatedAt
      (result.1, u :: result.2)

/-- delete from users.repository.ts: keeps every record with a different id and
reports whether the length shrank. -/
def delete (store : List User) (id : String) : Bool × List User :=
  let remaining := store.filter (fun u => u.id != id)
  (remaining.length < store.length, remaining)

end InMemoryUserRepository

namespace UsersService

/-- listUsers from users.service.ts: repository findAll plus pagination meta. -/
def listUsers (store : List User) (pagination : PaginationQuery) : PaginatedResult User :=
  let found := InMemoryUserRepository.findAll store pagination
  { data := found.1, meta := buildPaginationMeta found.2 pagination.page pagination.limit }

/-- getUserById from users.service.ts: NotFoundError when the id is absent. -/
def getUserById (store : List User) (id : String) : Except AppError User :=
  match InMemoryUserRepository.findById store id with
  | none => .error (NotFoundError "User" id)
  | some u => .ok u

/-- createUser from users.service.ts: ConflictError when findByEmail hits,
otherwise create with the service-generated id and timestamp (oracle inputs
freshId and now stand for uuidv4() and new Date().toISOString()). -/
def createUser (store : List User) (input : CreateUserInput) (freshId : String)
    (now : String) : Except AppError User × List User :=
  match InMemoryUserRepository.findByEmail store input.email with
  | some _ => (.error (ConflictError (conflictMessage input.email)), store)
  | none =>
    let created := InMemoryUserRepository.create store freshId input now
    (.ok created.1, created.2)

/-- Email-uniqueness guard of updateUser in users.service.ts: runs only when
input.email is truthy (present and nonempty), and only objects to a holder
with a different id. -/
def emailConflictCheck (store : List User) (id : String) (input : UpdateUserInput) :
    Option AppError :=
  match input.email with
  | none => none
  | some e =>
    if e == "" then none
    else
      match InMemoryUserRepository.findByEmail store e with
      | some existing =>
        if existing.id == id then none else some (ConflictError (conflictMessage e))
      | none => none

/-- updateUser from users.service.ts: email guard, then repository update with
a freshly generated timestamp, then NotFoundError when the repository reports
no match. -/
def updateUser (store : List User) (id : String) (input : UpdateUserInput)
    (updatedAt : String) : Except AppError User × List User :=
  match emailConflictCheck store id input with
  | some e => (.error e, store)
  | none =>
    let result := InMemoryUserRepository.update store id input updatedAt
    match result.1 with
    | none => (.error (NotFoundError "User" id), result.2)
    | some u => (.ok u, result.2)

/-- deleteUser from users.service.ts: NotFoundError when no removal occurred. -/
def deleteUser (store : List User) (id : String) : Except AppError Unit × List User :=
  let result := InMemoryUserRepository.delete store id
  if result.1 then (.ok (), result.2)
  else (.error (NotFoundError "User" id), result.2)

end UsersService

/-! Validation stage (createUserSchema in users.schema.ts, applied by the
validate middleware before any business logic). The zod email syntax check is
third-party (spec section 1 treats the schema engine as a black box), so it is
a parameter; the lowercasing, trimming, length bounds and role defaulting are
translated from the schema declaration. zod runs the declared checks on the
raw string and applies the transforms afterwards, so the length bounds are
checked before trimming and the email syntax before lowercasing. -/

/-- Raw, untrusted POST /users body. -/
structure RawCreate where
  name : Option String
  email : Option String
  role : Option String
deriving DecidableEq, Repr

/-- Name rule of createUserSchema: required, length in [2, 100], then trimmed. -/
def parseName : Option String → Except FieldError String
  | none => .error { field := "name", message := "name is required" }
  | some s =>
    if s.length < 2 then
      .error { field := "name", message := "name must be at least 2 characters" }
    else if 100 < s.length then
      .error { field := "name", message := "name must be at most 100 characters" }
    else
      .ok (trimStr s)

/-- Email rule of createUserSchema: required, valid syntax per the black-box
check, then lowercased. -/
def parseEmail (emailFormatOk : String → Bool) : Option String → Except FieldError String
  | none => .error { field := "email", message := "email is required" }
  | some s =>
    if emailFormatOk s then .ok (lowerStr s)
    else .error { field := "email", message := "email must be a valid email address" }

/-- Role rule of createUserSchema: optional member of the closed enum,
defaulting to viewer when absent. -/
def parseRole : Option String → Except FieldError Role
  | none => .ok .viewer
  | some s =>
    if s == "admin" then .ok .admin
    else if s == "editor" then .ok .editor
    else if s == "viewer" then .ok .viewer
    else .error { field := "role", message := "Invalid enum value" }

/-- Field errors contributed by one parsed field. -/
def errsOf {α : Type} : Except FieldError α → List FieldError
  | .ok _ => []
  | .error e => [e]

/-- createUserSchema.safeParse: all three field rules, collecting every field
error in declaration order (zod reports all issues). -/
def parseCreateUser (emailFormatOk : String → Bool) (raw : RawCreate) :
    Except (List FieldError) CreateUserInput :=
  match parseName raw.name, parseEmail emailFormatOk raw.email, parseRole raw.role with
  | .ok n, .ok e, .ok r => .ok { name := n, email := e, role := r }
  | rn, re, rr => .error (errsOf rn ++ errsOf re ++ errsOf rr)

/-! Request-correlation middleware (shared/middleware/requestId.ts). -/

/-- Request and response x-request-id headers after the middleware ran. -/
structure RequestIdOutcome where
  reqHeader : String
  resHeader : String
deriving DecidableEq, Repr

/-- requestId middleware: reuse the incoming header when it is a string whose
trim is nonempty, otherwise use the generated uuid (oracle input); write the
chosen id to both the request and the response headers. -/
def requestIdMiddleware (incoming : Option String) (generatedUuid : String) :
    RequestIdOutcome :=
  let id :=
    match incoming with
    | some s => if trimStr s != "" then s else generatedUuid
    | none => generatedUuid
  { reqHeader := id, resHeader := id }

/-! Centralized error handler (shared/middleware/errorHandler.ts; both bundled
revisions serialize responses identically). -/

/-- An error reaching the boundary middleware: either an operational AppError
or anything else (captured by its message and stack, which the handler must
never expose). -/
inductive Thrown
  | app (e : AppError)
  | unexpected (message : String) (stack : String)
deriving DecidableEq, Repr

/-- Serialized error body (AppError.serialize): details only when present,
requestId only when truthy. -/
structure SerializedError where
  code : ErrorCode
  message : String
  details : Option (List FieldError)
  requestId : Option String
deriving DecidableEq, Repr

/-- HTTP error response produced by the handler. -/
structure HttpResponse where
  status : Nat
  body : SerializedError
deriving DecidableEq, Repr

/-- AppError.serialize from shared/errors/AppError.ts. -/
def serialize (e : AppError) (requestId : Option String) : SerializedError :=
  { code := e.code, message := e.message, details := e.details,
    requestId :=
      match requestId with
      | some r => if r == "" then none else some r
      | none => none }

/-- errorHandler: operational errors answer with their own status and
serialization; everything else answers 500 with the fixed generic body. -/
def errorHandler (err : Thrown) (requestId : Option String) : HttpResponse :=
  match err with
  | .app e => { status := e.statusCode, body := serialize e requestId }
  | .unexpected _ _ =>
    { status := 500,
      body := { code := .INTERNAL_SERVER_ERROR,
                message := "An unexpected error occurred",
                details := none, requestId := requestId } }

/-! Log traces of the service layer. The repository ships two revisions of
UsersService: the one imported by users.routes.ts
(src/src/modules/users/users.service.ts) and a revision bundled inside
src/src/server.ts. Only the log levels differ on the read paths, so each
operation is modelled by the list of records it emits. -/

/-- Pino log levels used by the codebase. -/
inductive LogLevel
  | debug
  | info
  | warn
  | error
deriving DecidableEq, Repr

/-- One structured log record. -/
structure LogRecord where
  level : LogLevel
  message : String
deriving DecidableEq, Repr

/-- Business significance: info and above; debug is diagnostic only
(blogs/LOG_RULES.md). -/
def businessSignificant : LogLevel → Bool
  | .debug => false
  | _ => true

namespace WiredUsersService

/-- listUsers of the wired service (modules/users/users.service.ts): result
plus its log trace — a single info record on every call. -/
def listUsers (store : List User) (pagination : PaginationQuery) :
    PaginatedResult User × List LogRecord :=
  (UsersService.listUsers store pagination, [{ level := .info, message := "Users listed" }])

/-- getUserById of the wired service: warn on the not-found path, info on the
successful read path. -/
def getUserById (store : List User) (id : String) :
    Except AppError User × List LogRecord :=
  match InMemoryUserRepository.findById store id with
  | none =>
    (.error (NotFoundError "User" id), [{ level := .warn, message := "User not found" }])
  | some u => (.ok u, [{ level := .info, message := "User retrieved" }])

end WiredUsersService

namespace RevisedUsersService

/-- listUsers of the revision bundled in src/src/server.ts: the same result,
logged at debug. -/
def listUsers (store : List User) (pagination : PaginationQuery) :
    PaginatedResult User × List LogRecord :=
  (UsersService.listUsers store pagination, [{ level := .debug, message := "Users listed" }])

/-- getUserById of the revision bundled in src/src/server.ts: debug on entry
and on the successful read, warn only on the not-found path. -/
def getUserById (store : List User) (id : String) :
    Except AppError User × List LogRecord :=
  match InMemoryUserRepository.findById store id with
  | none =>
    (.error (NotFoundError "User" id),
      [{ level := .debug, message := "Looking up user by id" },
       { level := .warn, message := "User not found" }])
  | some u =>
    (.ok u,
      [{ level := .debug, message := "Looking up user by id" },
       { level := .debug, message := "User retrieved" }])

end RevisedUsersService

/-- SEED_USERS from users.repository.ts (bundled in src/src/server.ts). -/
def SEED_USERS : List User :=
  [{ id := "11111111-0000-0000-0000-000000000001", name := "Alice Nguyen",
     email := "alice@example.com", role := .admin,
     createdAt := "2024-01-10T08:00:00.000Z", updatedAt := "2024-01-10T08:00:00.000Z" },
   { id := "11111111-0000-0000-0000-000000000002", name := "Bob Chen",
     email := "bob@example.com", role := .editor,
     createdAt := "2024-01-11T09:15:00.000Z", updatedAt := "2024-01-11T09:15:00.000Z" },
   { id := "11111111-0000-0000-0000-000000000003", name := "Carol Smith",
     email := "carol@example.com", role := .viewer,
     createdAt := "2024-01-12T10:30:00.000Z", updatedAt := "2024-01-12T10:30:00.000Z" },
   { id := "11111111-0000-0000-0000-000000000004", name := "David Kim",
     email := "david@example.com", role := .editor,
     createdAt := "2024-01-13T11:00:00.000Z", updatedAt := "2024-01-13T11:00:00.000Z" },
   { id := "11111111-0000-0000-0000-000000000005", name := "Eva Martinez",
     email := "eva@example.com", role := .viewer,
     createdAt := "2024-01-14T12:00:00.000Z", updatedAt := "2024-01-14T12:00:00.000Z" },
   { id := "11111111-0000-0000-0000-000000000006", name := "Frank Obi",
     email := "frank@example.com", role := .admin,
     createdAt := "2024-01-15T13:00:00.000Z", updatedAt := "2024-01-15T13:00:00.000Z" },
   { id := "11111111-0000-0000-0000-000000000007", name := "Grace Lee",
     email := "grace@example.com", role := .viewer,
     createdAt := "2024-01-16T14:00:00.000Z", updatedAt := "2024-01-16T14:00:00.000Z" },
   { id := "11111111-0000-0000-0000-000000000008", name := "Henry Park",
     email := "henry@example.com", role := .editor,
     createdAt := "2024-01-17T15:00:00.000Z", updatedAt := "2024-01-17T15:00:00.000Z" },
   { id := "11111111-0000-0000-0000-000000000009", name := "Irene Walsh",
     email := "irene@example.com", role := .viewer,
     createdAt := "2024-01-18T16:00:00.000Z", updatedAt := "2024-01-18T16:00:00.000Z" },
   { id := "11111111-0000-0000-0000-000000000010", name := "James Torres",
     email := "james@example.com", role := .editor,
     createdAt := "2024-01-19T17:00:00.000Z", updatedAt := "2024-01-19T17:00:00.000Z" }]

/-- Initial store of every freshly constructed InMemoryUserRepository,
including the module singleton userRepository wired into the HTTP app:
a shallow copy of SEED_USERS (value-equal to it). -/
def initialStore : List User :=
  SEED_USERS.map (fun u => { u with })

/-! Helper lemmas shared by the claim theorems. -/

/-- Inversion of a successful createUserSchema parse: the name was supplied and
got trimmed, the email was supplied, passed the syntax check and got
lowercased, and an omitted role defaulted to viewer. -/
theorem parseCreateUser_ok_inv {f : String → Bool} {raw : RawCreate}
    {input : CreateUserInput} (h : parseCreateUser f raw = .ok input) :
    (∃ n, raw.name = some n ∧ input.name = trimStr n) ∧
    (∃ e, raw.email = some e ∧ f e = true ∧ input.email = lowerStr e) ∧
    (raw.role = none → input.role = .viewer) := by
  unfold parseCreateUser at h
  split at h
  case _ n e r hn he hr =>
    cases h
    refine ⟨?_, ?_, ?_⟩
    · cases hname : raw.name with
      | none => rw [hname] at hn; exact absurd hn (by simp [parseName])
      | some s =>
        rw [hname] at hn
        simp only [parseName] at hn
        split at hn
        · exact absurd hn (by simp)
        · split at hn
          · exact absurd hn (by simp)
          · exact ⟨s, rfl, (Except.ok.inj hn).symm⟩
    · cases hemail : raw.email with
      | none => rw [hemail] at he; exact absurd he (by simp [parseEmail])
      | some s =>
        rw [hemail] at he
        simp only [parseEmail] at he
        split at he
        next hf => exact ⟨s, rfl, hf, (Except.ok.inj he).symm⟩
        next => exact absurd he (by simp)
    · intro hrole
      rw [hrole] at hr
      exact (Except.ok.inj hr).symm
  case _ => exact absurd h (by simp)

/-- The conflict message contains the offending email between single quotes. -/
theorem conflictMessage_names_email (email : String) :
    ∃ pre post, conflictMessage email = pre ++ email ++ post := by
  refine ⟨"A user with email " ++ sq, sq ++ " already exists", ?_⟩
  simp [conflictMessage, String.append_assoc]

/-- The not-found message contains the requested id between single quotes. -/
theorem notFound_names_id (resource : String) (id : String) :
    ∃ pre post, (NotFoundError resource id).message = pre ++ id ++ post := by
  refine ⟨resource ++ " with id " ++ sq, sq ++ " not found", ?_⟩
  simp [NotFoundError, String.append_assoc]

/-- A map that fixes every member of a list fixes the list. -/
theorem map_eq_self_of_fix {α : Type} {l : List α} {f : α → α}
    (h : ∀ a ∈ l, f a = a) : l.map f = l := by
  conv_rhs => rw [← List.map_id l]
  exact List.map_congr_left h

/-- Repository update when no record has the target id: reports none and
returns the store unchanged. -/
theorem update_not_found (id : String) (input : UpdateUserInput) (t : String) :
    ∀ store : List User, (∀ u ∈ store, u.id ≠ id) →
      InMemoryUserRepository.update store id input t = (none, store) := by
  intro store
  induction store with
  | nil => intro _; rfl
  | cons u rest ih =>
    intro h
    have hu : (u.id == id) = false := by
      simp only [beq_eq_false_iff_ne, ne_eq]
      exact h u (List.mem_cons_self u rest)
    have hrest := ih (fun v hv => h v (List.mem_cons_of_mem u hv))
    simp only [InMemoryUserRepository.update, hu, Bool.false_eq_true, if_false, hrest]

/-- Repository update when the target id belongs to a member of a store with
pairwise distinct ids: reports the merged record, and the new store is the
pointwise replacement at the matching id. -/
theorem update_found (id : String) (input : UpdateUserInput) (t : String) :
    ∀ store : List User, (store.map User.id).Nodup →
      ∀ target ∈ store, target.id = id →
      InMemoryUserRepository.update store id input t =
        (some (InMemoryUserRepository.applyUpdate target input t),
         store.map (fun u =>
           if u.id = id then InMemoryUserRepository.applyUpdate u input t else u)) := by
  intro store
  induction store with
  | nil => intro _ target ht; exact absurd ht (List.not_mem_nil target)
  | cons u rest ih =>
    intro hnd target hmem hid
    have hnd2 : (rest.map User.id).Nodup := (List.nodup_cons.1 hnd).2
    have hnotin : u.id ∉ rest.map User.id := (List.nodup_cons.1 hnd).1
    by_cases hu : u.id = id
    · have htu : target = u := by
        rcases List.mem_cons.1 hmem with h | h
        · exact h
        · exfalso
          exact hnotin (hu ▸ hid ▸ List.mem_map_of_mem User.id h)
      subst htu
      have hfix : rest.map (fun v =>
          if v.id = id then InMemoryUserRepository.applyUpdate v input t else v) = rest := by
        refine map_eq_self_of_fix (fun v hv => if_neg ?_)
        intro hvid
        exact hnotin (hu ▸ hvid ▸ List.mem_map_of_mem User.id hv)
      simp only [InMemoryUserRepository.update, beq_iff_eq, hu, if_true, List.map_cons,
        if_pos hu, hfix]
    · have htmem : target ∈ rest := by
        rcases List.mem_cons.1 hmem with h | h
        · exact absurd (h ▸ hid) hu
        · exact h
      have hbeq : (u.id == id) = false := by simp [hu]
      have hrec := ih hnd2 target htmem hid
      simp only [InMemoryUserRepository.update, hbeq, Bool.false_eq_true, if_false, hrec,
        List.map_cons, if_neg hu]

/-- findByEmail hits exactly the member holding the email when stored emails
are pairwise distinct. -/
theorem findByEmail_mem {store : List User} {u : User} {e : String}
    (hne : (store.map User.email).Nodup) (hu : u ∈ store) (he : u.email = e) :
    InMemoryUserRepository.findByEmail store e = some u := by
  cases hfind : InMemoryUserRepository.findByEmail store e with
  | none =>
    exfalso
    unfold InMemoryUserRepository.findByEmail at hfind
    rw [List.find?_eq_none] at hfind
    exact hfind u hu (by simp [he])
  | some w =>
    unfold InMemoryUserRepository.findByEmail at hfind
    have hwmem : w ∈ store := List.mem_of_find?_eq_some hfind
    have hwe : w.email = e := by
      have := List.find?_some hfind
      simpa using this
    have : w = u := List.inj_on_of_nodup_map hne hwmem hu (by rw [hwe, he])
    rw [this]

/-! Theorems. -/

/-- C3: for positive page and limit, listUsers returns the slice of the store
in insertion order starting at offset (page-1)*limit: its length is
max(0, min(limit, total - (page-1)*limit)) (an out-of-range offset yields an
empty slice, not an error), its entries are the store entries shifted by the
offset, and meta.totalPages is 1 when total = 0 and otherwise the ceiling of
total/limit, characterized as the least n with n * limit ≥ total. -/
theorem c3_pagination_slice_and_meta (store : List User) (p : PaginationQuery)
    (hp : 1 ≤ p.page) (hl : 1 ≤ p.limit) :
    ((UsersService.listUsers store p).data.length : Int) =
      max 0 (min (p.limit : Int)
        ((store.length : Int) - ((p.page : Int) - 1) * (p.limit : Int))) ∧
    (∀ i : Nat, (UsersService.listUsers store p).data[i]? =
      if i < p.limit then store[toOffset p.page p.limit + i]? else none) ∧
    (UsersService.listUsers store p).meta.total = store.length ∧
    (store.length = 0 → (UsersService.listUsers store p).meta.totalPages = 1) ∧
    (0 < store.length →
      (UsersService.listUsers store p).meta.totalPages * p.limit ≥ store.length ∧
      ((UsersService.listUsers store p).meta.totalPages - 1) * p.limit < store.length) := by
  have hdata : (UsersService.listUsers store p).data =
      (store.drop (toOffset p.page p.limit)).take p.limit := rfl
  have hmeta : (UsersService.listUsers store p).meta =
      buildPaginationMeta store.length p.page p.limit := rfl
  refine ⟨?_, ?_, rfl, ?_, ?_⟩
  · rw [hdata]
    have hlen : ((store.drop (toOffset p.page p.limit)).take p.limit).length =
        min p.limit (store.length - toOffset p.page p.limit) := by
      simp
    rw [hlen]
    have ho : ((toOffset p.page p.limit : Nat) : Int) =
        ((p.page : Int) - 1) * (p.limit : Int) := by
      unfold toOffset
      push_cast [Nat.cast_sub hp]
      ring
    rw [← ho]
    omega
  · intro i
    rw [hdata]
    by_cases hi : i < p.limit
    · rw [List.getElem?_take_of_lt hi, List.getElem?_drop, if_pos hi]
    · rw [if_neg hi]
      have : p.limit ≤ i := Nat.le_of_not_lt hi
      rw [List.getElem?_eq_none]
      simp only [List.length_take, List.length_drop]
      omega
  · intro h0
    rw [hmeta]
    simp only [buildPaginationMeta, h0]
    have : ceilNat 0 p.limit = 0 := by
      unfold ceilNat
      exact Nat.div_eq_of_lt (by omega)
    rw [this]
    rfl
  · intro h0
    rw [hmeta]
    have hne : ceilNat store.length p.limit ≠ 0 := by
      unfold ceilNat
      have := (Nat.one_le_div_iff (show 0 < p.limit by omega)).2
        (show p.limit ≤ store.length + p.limit - 1 by omega)
      omega
    simp only [buildPaginationMeta, if_neg hne]
    unfold ceilNat
    have hdm := Nat.div_add_mod (store.length + p.limit - 1) p.limit
    have hmod : (store.length + p.limit - 1) % p.limit < p.limit :=
      Nat.mod_lt _ (by omega)
    have hc : ((store.length + p.limit - 1) / p.limit) * p.limit =
        p.limit * ((store.length + p.limit - 1) / p.limit) := Nat.mul_comm _ _
    have hs : (((store.length + p.limit - 1) / p.limit) - 1) * p.limit =
        ((store.length + p.limit - 1) / p.limit) * p.limit - p.limit := by
      rw [Nat.sub_mul, Nat.one_mul]
    rw [hs, hc]
    omega

/-- C3 witness: page 2 and limit 3 on the seeded store of 10 records. -/
theorem c3_pagination_witness :
    ((UsersService.listUsers initialStore { page := 2, limit := 3 }).data.length : Int) =
      max 0 (min ((({ page := 2, limit := 3 } : PaginationQuery).limit : Nat) : Int)
        ((initialStore.length : Int) -
          (((({ page := 2, limit := 3 } : PaginationQuery).page : Nat) : Int) - 1) *
            ((({ page := 2, limit := 3 } : PaginationQuery).limit : Nat) : Int))) :=
  (c3_pagination_slice_and_meta initialStore { page := 2, limit := 3 }
    (by decide) (by decide)).1

/-- C1: a create request whose email matches, ignoring case, the email of a
user already in the store (stored emails being lowercase-normalized, the store
invariant) is rejected by the validation-then-createUser pipeline with a
CONFLICT error whose message names the offending (normalized) email, and the
store is returned exactly unchanged. -/
theorem c1_create_duplicate_email_conflict
    (emailFormatOk : String → Bool) (store : List User) (raw : RawCreate)
    (input : CreateUserInput) (rawEmail : String) (freshId now : String)
    (hparse : parseCreateUser emailFormatOk raw = .ok input)
    (hraw : raw.email = some rawEmail)
    (hnorm : ∀ u ∈ store, lowerStr u.email = u.email)
    (hdup : ∃ u ∈ store, lowerStr u.email = lowerStr rawEmail) :
    UsersService.createUser store input freshId now =
      (.error (ConflictError (conflictMessage input.email)), store) ∧
    (ConflictError (conflictMessage input.email)).code = .CONFLICT ∧
    (∃ pre post, conflictMessage input.email = pre ++ input.email ++ post) := by
  obtain ⟨-, ⟨e, hre, -, hemail⟩, -⟩ := parseCreateUser_ok_inv hparse
  rw [hraw] at hre
  obtain rfl : rawEmail = e := Option.some.inj hre
  obtain ⟨u, hu, hle⟩ := hdup
  have hueq : u.email = input.email := by
    rw [hemail, ← hnorm u hu, hle]
  refine ⟨?_, rfl, conflictMessage_names_email input.email⟩
  unfold UsersService.createUser
  cases hfind : InMemoryUserRepository.findByEmail store input.email with
  | none =>
    exfalso
    unfold InMemoryUserRepository.findByEmail at hfind
    rw [List.find?_eq_none] at hfind
    exact hfind u hu (by simp [hueq])
  | some w => rfl

/-- C1 witness: creating a second Alice with the email differing only in case
conflicts on the seeded store and leaves it unchanged. -/
theorem c1_create_duplicate_email_conflict_witness :
    UsersService.createUser initialStore
      { name := "Duplicate Alice", email := "alice@example.com", role := .viewer }
      "22222222-0000-0000-0000-000000000001" "2024-02-01T00:00:00.000Z" =
      (.error (ConflictError (conflictMessage "alice@example.com")), initialStore) :=
  (c1_create_duplicate_email_conflict (fun _ => true) initialStore
    { name := some "Duplicate Alice", email := some "Alice@Example.com", role := none }
    { name := "Duplicate Alice", email := "alice@example.com", role := .viewer }
    "Alice@Example.com" "22222222-0000-0000-0000-000000000001" "2024-02-01T00:00:00.000Z"
    rfl rfl (by decide) (by decide)).1

/-- C7: every error reaching the boundary middleware that is not an AppError
is answered with HTTP 500, code INTERNAL_SERVER_ERROR and the fixed message
"An unexpected error occurred"; the response is the same for every original
message and stack, so no part of the original error appears in the body. -/
theorem c7_unexpected_error_response_is_fixed (m s : String) (rid : Option String) :
    errorHandler (.unexpected m s) rid =
      { status := 500,
        body := { code := .INTERNAL_SERVER_ERROR,
                  message := "An unexpected error occurred",
                  details := none, requestId := rid } } ∧
    errorHandler (.unexpected m s) rid = errorHandler (.unexpected "" "") rid := by
  constructor <;> rfl

/-- C8 counterexample: the header value consisting of a single space is
supplied and non-empty, yet the middleware discards it and uses the generated
id, so the exact supplied value is not reused. -/
theorem c8_whitespace_header_counterexample :
    (" " : String) ≠ "" ∧
    requestIdMiddleware (some " ") "3f2a0c1e-aaaa-bbbb-cccc-0123456789ab" =
      { reqHeader := "3f2a0c1e-aaaa-bbbb-cccc-0123456789ab",
        resHeader := "3f2a0c1e-aaaa-bbbb-cccc-0123456789ab" } ∧
    ("3f2a0c1e-aaaa-bbbb-cccc-0123456789ab" : String) ≠ " " := by
  refine ⟨by decide, by decide, by decide⟩

/-- C8 amended: the supplied x-request-id is reused and echoed verbatim when
its trim is nonempty; a missing or whitespace-only header is replaced by the
generated id; in all cases the response carries the same x-request-id as the
request. -/
theorem c8_request_id_amended (incoming : Option String) (gen : String) :
    (∀ s, incoming = some s → trimStr s ≠ "" →
      requestIdMiddleware incoming gen = { reqHeader := s, resHeader := s }) ∧
    (∀ s, incoming = some s → trimStr s = "" →
      requestIdMiddleware incoming gen = { reqHeader := gen, resHeader := gen }) ∧
    (incoming = none →
      requestIdMiddleware incoming gen = { reqHeader := gen, resHeader := gen }) ∧
    (requestIdMiddleware incoming gen).resHeader = (requestIdMiddleware incoming gen).reqHeader := by
  refine ⟨?_, ?_, ?_, ?_⟩
  · intro s hs hne
    subst hs
    simp [requestIdMiddleware, hne]
  · intro s hs he
    subst hs
    simp [requestIdMiddleware, he]
  · intro h
    subst h
    rfl
  · cases incoming with
    | none => rfl
    | some s => simp [requestIdMiddleware]

/-- C8 amended, witness: a concrete non-whitespace header is reused verbatim. -/
theorem c8_request_id_amended_witness :
    requestIdMiddleware (some "test-correlation-id") "generated-uuid" =
      { reqHeader := "test-correlation-id", resHeader := "test-correlation-id" } :=
  (c8_request_id_amended (some "test-correlation-id") "generated-uuid").1
    "test-correlation-id" rfl (by decide)

/-- C10: every freshly constructed InMemoryUserRepository, including the
module singleton wired into the HTTP app, starts with exactly the 10 seed
records in fixed insertion order (ids ...0001 through ...0010), with pairwise
distinct lowercase emails, and findAll on the fresh store reports total 10. -/
theorem c10_initial_store_seeded :
    initialStore = SEED_USERS ∧
    initialStore.length = 10 ∧
    initialStore.map User.id =
      ["11111111-0000-0000-0000-000000000001", "11111111-0000-0000-0000-000000000002",
       "11111111-0000-0000-0000-000000000003", "11111111-0000-0000-0000-000000000004",
       "11111111-0000-0000-0000-000000000005", "11111111-0000-0000-0000-000000000006",
       "11111111-0000-0000-0000-000000000007", "11111111-0000-0000-0000-000000000008",
       "11111111-0000-0000-0000-000000000009", "11111111-0000-0000-0000-000000000010"] ∧
    (initialStore.map User.email).Nodup ∧
    (∀ u ∈ initialStore, lowerStr u.email = u.email) ∧
    (InMemoryUserRepository.findAll initialStore { page := 1, limit := 10 }).2 = 10 := by
  refine ⟨rfl, rfl, rfl, by decide, by decide, rfl⟩

/-- C4: for an id not present in the store, getUserById, deleteUser and
updateUser (with a partial input whose email, if present, is held by no
existing user) all fail with a RESOURCE_NOT_FOUND error whose message includes
the requested id, and each failed operation returns the store exactly
unchanged — in particular the delete does not change its size. -/
theorem c4_absent_id_not_found (store : List User) (id : String)
    (input : UpdateUserInput) (updatedAt : String)
    (habs : ∀ u ∈ store, u.id ≠ id)
    (hfree : ∀ u ∈ store, input.email ≠ some u.email) :
    UsersService.getUserById store id = .error (NotFoundError "User" id) ∧
    UsersService.deleteUser store id = (.error (NotFoundError "User" id), store) ∧
    UsersService.updateUser store id input updatedAt =
      (.error (NotFoundError "User" id), store) ∧
    (UsersService.deleteUser store id).2.length = store.length ∧
    (NotFoundError "User" id).code = .RESOURCE_NOT_FOUND ∧
    (NotFoundError "User" id).statusCode = 404 ∧
    (∃ pre post, (NotFoundError "User" id).message = pre ++ id ++ post) := by
  have hfid : InMemoryUserRepository.findById store id = none := by
    unfold InMemoryUserRepository.findById
    rw [List.find?_eq_none]
    intro u hu
    simp [habs u hu]
  have hfil : store.filter (fun u => u.id != id) = store := by
    rw [List.filter_eq_self]
    intro u hu
    simp [habs u hu]
  have hdel : UsersService.deleteUser store id = (.error (NotFoundError "User" id), store) := by
    simp [UsersService.deleteUser, InMemoryUserRepository.delete, hfil, Nat.lt_irrefl]
  have hchk : UsersService.emailConflictCheck store id input = none := by
    unfold UsersService.emailConflictCheck
    cases hie : input.email with
    | none => rfl
    | some e =>
      by_cases he : e == ""
      · simp [he]
      · have hfind : InMemoryUserRepository.findByEmail store e = none := by
          unfold InMemoryUserRepository.findByEmail
          rw [List.find?_eq_none]
          intro u hu heq
          have hee : u.email = e := by simpa using heq
          exact hfree u hu (by rw [hie, hee])
        simp [he, hfind]
  refine ⟨?_, hdel, ?_, by rw [hdel], rfl, rfl, notFound_names_id "User" id⟩
  · unfold UsersService.getUserById
    rw [hfid]
  · unfold UsersService.updateUser
    rw [hchk]
    simp only [update_not_found id input updatedAt store habs]

/-- C4 witness: the id "nonexistent-id" on the seeded store, with an update
body renaming only. -/
theorem c4_absent_id_not_found_witness :
    UsersService.getUserById initialStore "nonexistent-id" =
      .error (NotFoundError "User" "nonexistent-id") ∧
    UsersService.deleteUser initialStore "nonexistent-id" =
      (.error (NotFoundError "User" "nonexistent-id"), initialStore) ∧
    UsersService.updateUser initialStore "nonexistent-id"
      { name := some "Ghost", email := none, role := none } "2024-02-01T00:00:00.000Z" =
      (.error (NotFoundError "User" "nonexistent-id"), initialStore) := by
  have h := c4_absent_id_not_found initialStore "nonexistent-id"
    { name := some "Ghost", email := none, role := none } "2024-02-01T00:00:00.000Z"
    (by decide) (by decide)
  exact ⟨h.1, h.2.1, h.2.2.1⟩

/-- C5: creating from any successfully validated input whose email is free and
whose generated id is fresh, then fetching the returned id, yields exactly the
stored record: name and role as validated, email as the lowercased raw email,
role defaulting to viewer when the raw request omitted it, and
createdAt = updatedAt. -/
theorem c5_create_then_get_roundtrip
    (emailFormatOk : String → Bool) (store : List User) (raw : RawCreate)
    (input : CreateUserInput) (freshId now : String)
    (hparse : parseCreateUser emailFormatOk raw = .ok input)
    (hfree : ∀ u ∈ store, u.email ≠ input.email)
    (hfresh : ∀ u ∈ store, u.id ≠ freshId) :
    UsersService.createUser store input freshId now =
      (.ok (InMemoryUserRepository.create store freshId input now).1,
       store ++ [(InMemoryUserRepository.create store freshId input now).1]) ∧
    UsersService.getUserById (UsersService.createUser store input freshId now).2 freshId =
      .ok (InMemoryUserRepository.create store freshId input now).1 ∧
    (InMemoryUserRepository.create store freshId input now).1.name = input.name ∧
    (InMemoryUserRepository.create store freshId input now).1.email = input.email ∧
    (InMemoryUserRepository.create store freshId input now).1.role = input.role ∧
    (∃ e, raw.email = some e ∧ input.email = lowerStr e) ∧
    (raw.role = none → input.role = .viewer) ∧
    (InMemoryUserRepository.create store freshId input now).1.createdAt =
      (InMemoryUserRepository.create store freshId input now).1.updatedAt := by
  obtain ⟨-, hemail, hrole⟩ := parseCreateUser_ok_inv hparse
  have hfind : InMemoryUserRepository.findByEmail store input.email = none := by
    unfold InMemoryUserRepository.findByEmail
    rw [List.find?_eq_none]
    intro u hu
    simp [hfree u hu]
  have hcreate : UsersService.createUser store input freshId now =
      (.ok (InMemoryUserRepository.create store freshId input now).1,
       store ++ [(InMemoryUserRepository.create store freshId input now).1]) := by
    unfold UsersService.createUser
    rw [hfind]
    rfl
  obtain ⟨e, he1, -, he3⟩ := hemail
  refine ⟨hcreate, ?_, rfl, rfl, rfl, ⟨e, he1, he3⟩, hrole, rfl⟩
  rw [hcreate]
  unfold UsersService.getUserById InMemoryUserRepository.findById
  rw [List.find?_append]
  have hstore : store.find? (fun u => u.id == freshId) = none := by
    rw [List.find?_eq_none]
    intro u hu
    simp [hfresh u hu]
  rw [hstore]
  simp [InMemoryUserRepository.create]

/-- C5 witness: the scenario from the spec — Jane Doe with a mixed-case email
and no role — on the seeded store. -/
theorem c5_create_then_get_roundtrip_witness :
    UsersService.createUser initialStore
      { name := "Jane Doe", email := "jane@example.com", role := .viewer }
      "22222222-0000-0000-0000-000000000002" "2024-02-01T00:00:00.000Z" =
      (.ok (InMemoryUserRepository.create initialStore
          "22222222-0000-0000-0000-000000000002"
          { name := "Jane Doe", email := "jane@example.com", role := .viewer }
          "2024-02-01T00:00:00.000Z").1,
       initialStore ++ [(InMemoryUserRepository.create initialStore
          "22222222-0000-0000-0000-000000000002"
          { name := "Jane Doe", email := "jane@example.com", role := .viewer }
          "2024-02-01T00:00:00.000Z").1]) ∧
    UsersService.getUserById
      (UsersService.createUser initialStore
        { name := "Jane Doe", email := "jane@example.com", role := .viewer }
        "22222222-0000-0000-0000-000000000002" "2024-02-01T00:00:00.000Z").2
      "22222222-0000-0000-0000-000000000002" =
      .ok (InMemoryUserRepository.create initialStore
          "22222222-0000-0000-0000-000000000002"
          { name := "Jane Doe", email := "jane@example.com", role := .viewer }
          "2024-02-01T00:00:00.000Z").1 := by
  have h := c5_create_then_get_roundtrip (fun _ => true) initialStore
    { name := some "Jane Doe", email := some "Jane@Example.com", role := none }
    { name := "Jane Doe", email := "jane@example.com", role := .viewer }
    "22222222-0000-0000-0000-000000000002" "2024-02-01T00:00:00.000Z"
    rfl (by decide) (by decide)
  exact ⟨h.1, h.2.1⟩

/-- C2: on a store with pairwise distinct emails and ids, for a validated
partial input carrying an email: if that email is held by an existing user
whose id differs from the target, updateUser fails with CONFLICT and the store
is unchanged; if the email equals the current email of the existing target,
updateUser succeeds and returns the merged record. -/
theorem c2_update_email_conflict_or_own (store : List User) (id : String)
    (input : UpdateUserInput) (e : String) (updatedAt : String)
    (hne : (store.map User.email).Nodup) (hni : (store.map User.id).Nodup)
    (hie : input.email = some e) (henonempty : e ≠ "") :
    (∀ other ∈ store, other.email = e → other.id ≠ id →
      UsersService.updateUser store id input updatedAt =
        (.error (ConflictError (conflictMessage e)), store)) ∧
    (∀ target ∈ store, target.id = id → target.email = e →
      UsersService.updateUser store id input updatedAt =
        (.ok (InMemoryUserRepository.applyUpdate target input updatedAt),
         store.map (fun u =>
           if u.id = id then InMemoryUserRepository.applyUpdate u input updatedAt
           else u))) := by
  constructor
  · intro other hmem hoe hoid
    have hfind := findByEmail_mem hne hmem hoe
    have hchk : UsersService.emailConflictCheck store id input =
        some (ConflictError (conflictMessage e)) := by
      unfold UsersService.emailConflictCheck
      rw [hie]
      simp only [beq_iff_eq, if_neg henonempty, hfind]
      rw [if_neg hoid]
    unfold UsersService.updateUser
    rw [hchk]
  · intro target hmem hid he
    have hfind := findByEmail_mem hne hmem he
    have hchk : UsersService.emailConflictCheck store id input = none := by
      unfold UsersService.emailConflictCheck
      rw [hie]
      simp only [beq_iff_eq, if_neg henonempty, hfind]
      rw [if_pos hid]
    have hupd := update_found id input updatedAt store hni target hmem hid
    unfold UsersService.updateUser
    rw [hchk, hupd]

/-- C2 witness: on the seeded store, updating Bob to the email of Alice
conflicts and leaves the store unchanged, while updating Bob to his own email
succeeds with the merged record. -/
theorem c2_update_email_conflict_or_own_witness :
    UsersService.updateUser initialStore "11111111-0000-0000-0000-000000000002"
      { name := none, email := some "alice@example.com", role := none }
      "2024-02-01T00:00:00.000Z" =
      (.error (ConflictError (conflictMessage "alice@example.com")), initialStore) ∧
    UsersService.updateUser initialStore "11111111-0000-0000-0000-000000000002"
      { name := none, email := some "bob@example.com", role := none }
      "2024-02-01T00:00:00.000Z" =
      (.ok (InMemoryUserRepository.applyUpdate
          { id := "11111111-0000-0000-0000-000000000002", name := "Bob Chen",
            email := "bob@example.com", role := .editor,
            createdAt := "2024-01-11T09:15:00.000Z",
            updatedAt := "2024-01-11T09:15:00.000Z" }
          { name := none, email := some "bob@example.com", role := none }
          "2024-02-01T00:00:00.000Z"),
       initialStore.map (fun u =>
         if u.id = "11111111-0000-0000-0000-000000000002" then
           InMemoryUserRepository.applyUpdate u
             { name := none, email := some "bob@example.com", role := none }
             "2024-02-01T00:00:00.000Z"
         else u)) := by
  constructor
  · exact (c2_update_email_conflict_or_own initialStore
      "11111111-0000-0000-0000-000000000002"
      { name := none, email := some "alice@example.com", role := none }
      "alice@example.com" "2024-02-01T00:00:00.000Z"
      (by decide) (by decide) rfl (by decide)).1
      { id := "11111111-0000-0000-0000-000000000001", name := "Alice Nguyen",
        email := "alice@example.com", role := .admin,
        createdAt := "2024-01-10T08:00:00.000Z",
        updatedAt := "2024-01-10T08:00:00.000Z" }
      (by decide) rfl (by decide)
  · exact (c2_update_email_conflict_or_own initialStore
      "11111111-0000-0000-0000-000000000002"
      { name := none, email := some "bob@example.com", role := none }
      "bob@example.com" "2024-02-01T00:00:00.000Z"
      (by decide) (by decide) rfl (by decide)).2
      { id := "11111111-0000-0000-0000-000000000002", name := "Bob Chen",
        email := "bob@example.com", role := .editor,
        createdAt := "2024-01-11T09:15:00.000Z",
        updatedAt := "2024-01-11T09:15:00.000Z" }
      (by decide) rfl rfl

/-- C6: on a store with pairwise distinct ids, Repository.update on an
existing record merges exactly the supplied fields plus updatedAt (set to the
supplied timestamp), preserves the id, createdAt and every unsupplied field of
the target, and maps every other record of the store to itself. -/
theorem c6_update_frame_condition (store : List User) (id : String)
    (input : UpdateUserInput) (t : String)
    (hni : (store.map User.id).Nodup) (target : User)
    (hmem : target ∈ store) (hid : target.id = id) :
    InMemoryUserRepository.update store id input t =
      (some (InMemoryUserRepository.applyUpdate target input t),
       store.map (fun u =>
         if u.id = id then InMemoryUserRepository.applyUpdate u input t else u)) ∧
    (InMemoryUserRepository.applyUpdate target input t).id = target.id ∧
    (InMemoryUserRepository.applyUpdate target input t).createdAt = target.createdAt ∧
    (InMemoryUserRepository.applyUpdate target input t).updatedAt = t ∧
    (∀ n, input.name = some n → (InMemoryUserRepository.applyUpdate target input t).name = n) ∧
    (input.name = none → (InMemoryUserRepository.applyUpdate target input t).name = target.name) ∧
    (∀ e, input.email = some e → (InMemoryUserRepository.applyUpdate target input t).email = e) ∧
    (input.email = none → (InMemoryUserRepository.applyUpdate target input t).email = target.email) ∧
    (∀ r, input.role = some r → (InMemoryUserRepository.applyUpdate target input t).role = r) ∧
    (input.role = none → (InMemoryUserRepository.applyUpdate target input t).role = target.role) ∧
    (∀ u ∈ store, u.id ≠ id →
      (if u.id = id then InMemoryUserRepository.applyUpdate u input t else u) = u) := by
  refine ⟨update_found id input t store hni target hmem hid, rfl, rfl, rfl,
    ?_, ?_, ?_, ?_, ?_, ?_, ?_⟩
  · intro n hn; simp [InMemoryUserRepository.applyUpdate, hn]
  · intro hn; simp [InMemoryUserRepository.applyUpdate, hn]
  · intro e he; simp [InMemoryUserRepository.applyUpdate, he]
  · intro he; simp [InMemoryUserRepository.applyUpdate, he]
  · intro r hr; simp [InMemoryUserRepository.applyUpdate, hr]
  · intro hr; simp [InMemoryUserRepository.applyUpdate, hr]
  · intro u _ hu; exact if_neg hu

/-- C6 witness: renaming Bob only, on the seeded store. -/
theorem c6_update_frame_condition_witness :
    InMemoryUserRepository.update initialStore "11111111-0000-0000-0000-000000000002"
      { name := some "Bob Updated", email := none, role := none }
      "2024-02-01T00:00:00.000Z" =
      (some (InMemoryUserRepository.applyUpdate
          { id := "11111111-0000-0000-0000-000000000002", name := "Bob Chen",
            email := "bob@example.com", role := .editor,
            createdAt := "2024-01-11T09:15:00.000Z",
            updatedAt := "2024-01-11T09:15:00.000Z" }
          { name := some "Bob Updated", email := none, role := none }
          "2024-02-01T00:00:00.000Z"),
       initialStore.map (fun u =>
         if u.id = "11111111-0000-0000-0000-000000000002" then
           InMemoryUserRepository.applyUpdate u
             { name := some "Bob Updated", email := none, role := none }
             "2024-02-01T00:00:00.000Z"
         else u)) :=
  (c6_update_frame_condition initialStore "11111111-0000-0000-0000-000000000002"
    { name := some "Bob Updated", email := none, role := none }
    "2024-02-01T00:00:00.000Z" (by decide)
    { id := "11111111-0000-0000-0000-000000000002", name := "Bob Chen",
      email := "bob@example.com", role := .editor,
      createdAt := "2024-01-11T09:15:00.000Z",
      updatedAt := "2024-01-11T09:15:00.000Z" }
    (by decide) rfl).1

/-- C9: the service revision wired into the HTTP app
(src/src/modules/users/users.service.ts) emits an info-level, hence
business-significant, record on each successful read — listUsers and
getUserById — contradicting the claim, while the revision bundled in
src/src/server.ts emits only debug records on those same reads. -/
theorem c9_wired_reads_emit_business_records :
    (WiredUsersService.listUsers initialStore { page := 1, limit := 10 }).2 =
      [{ level := .info, message := "Users listed" }] ∧
    (WiredUsersService.getUserById initialStore
        "11111111-0000-0000-0000-000000000001").2 =
      [{ level := .info, message := "User retrieved" }] ∧
    businessSignificant .info = true ∧
    (∀ r ∈ (RevisedUsersService.listUsers initialStore { page := 1, limit := 10 }).2,
      businessSignificant r.level = false) ∧
    (∀ r ∈ (RevisedUsersService.getUserById initialStore
        "11111111-0000-0000-0000-000000000001").2,
      businessSignificant r.level = false) := by
  refine ⟨rfl, by decide, rfl, by decide, by decide⟩

end NodePlayground
